import Mathlib

/-!
Verification of the adaptive-learning core of the Adaptive Medical Learning
System backend (mastery tracking in `app/mastery/service.py` and study-plan
generation in `app/recommender/planner.py`).

The Python code is shallowly embedded: real-valued scores and weights become
exact rationals (ℚ), datetimes become rational "days since epoch" with the
current time passed explicitly, SQLAlchemy rows become Lean structures and a
database table becomes a list of rows in stored order.  Python's `int(x)`
(truncation toward zero) and `//` (floor division) are modelled exactly.
-/

/-- Python `int(q)`: truncation toward zero. -/
def pyInt (q : ℚ) : ℤ := if 0 ≤ q then ⌊q⌋ else ⌈q⌉

theorem pyInt_eq_floor {q : ℚ} (h : 0 ≤ q) : pyInt q = ⌊q⌋ := if_pos h

/-- `app/utils/timestamps.py`: `days_since(dt) = (utcnow() - dt).days`.
Datetimes are modelled as rational days since an epoch; `timedelta.days`
floors the (possibly fractional) difference. -/
def days_since (now dt : ℚ) : ℤ := ⌊now - dt⌋

/-- `app/config.py` `Settings.MASTERY_INITIAL_SCORE`. -/
def MASTERY_INITIAL_SCORE : ℚ := 0.0

/-- `app/config.py` `Settings.MASTERY_CORRECT_INCREMENT`. -/
def MASTERY_CORRECT_INCREMENT : ℚ := 0.1

/-- `app/config.py` `Settings.MASTERY_INCORRECT_DECREMENT`. -/
def MASTERY_INCORRECT_DECREMENT : ℚ := 0.05

/-- `app/config.py` `Settings.MASTERY_WEAK_THRESHOLD`. -/
def MASTERY_WEAK_THRESHOLD : ℚ := 0.7

/-- A row of the `masteries` table (`app/mastery/models.py`).  The
`updated_at` column is maintained by the ORM (`onupdate=utcnow`), not by the
service code, and is not part of the embedding. -/
structure Mastery where
  user_id : Nat
  topic_id : Nat
  mastery_score : ℚ
  last_reviewed_at : Option ℚ
  review_count : Nat
  created_at : ℚ
deriving Repr, DecidableEq

/-- A row of the `topics` table (`app/content/models.py`), restricted to the
fields the planner reads. -/
structure Topic where
  id : Nat
  name : String
deriving Repr, DecidableEq

/-- `MasteryService.update_mastery_from_quiz`, the part that rewrites the
fetched record in place (`service.py` lines 75-86): score update, then
`last_reviewed_at = utcnow()` and `review_count += 1`. -/
def update_mastery_from_quiz (m : Mastery) (correct : Bool) (now : ℚ) : Mastery :=
  let new_score : ℚ :=
    if correct then
      min 1.0 (m.mastery_score + MASTERY_CORRECT_INCREMENT * (1.0 - m.mastery_score))
    else
      max 0.0 (m.mastery_score - MASTERY_INCORRECT_DECREMENT)
  { m with
    mastery_score := new_score
    last_reviewed_at := some now
    review_count := m.review_count + 1 }

/-- C1: with scores in [0,1], a correct answer yields
`min(1, s + 0.1*(1-s))`, an incorrect one `max(0, s - 0.05)`; the result
stays in [0,1], a correct answer never decreases the score and an incorrect
one never makes it negative. -/
theorem mastery_update_formula_and_bounds (m : Mastery) (now : ℚ)
    (h0 : 0 ≤ m.mastery_score) (h1 : m.mastery_score ≤ 1) :
    (update_mastery_from_quiz m true now).mastery_score
        = min 1 (m.mastery_score + 0.1 * (1 - m.mastery_score)) ∧
    (update_mastery_from_quiz m false now).mastery_score
        = max 0 (m.mastery_score - 0.05) ∧
    (∀ correct : Bool, 0 ≤ (update_mastery_from_quiz m correct now).mastery_score ∧
        (update_mastery_from_quiz m correct now).mastery_score ≤ 1) ∧
    m.mastery_score ≤ (update_mastery_from_quiz m true now).mastery_score ∧
    0 ≤ (update_mastery_from_quiz m false now).mastery_score := by
  simp only [update_mastery_from_quiz, MASTERY_CORRECT_INCREMENT,
    MASTERY_INCORRECT_DECREMENT]
  norm_num
  exact ⟨⟨by nlinarith, by nlinarith⟩, h1⟩

/-- Witness for C1 at the concrete score 1/2. -/
theorem mastery_update_formula_and_bounds_witness :
    (update_mastery_from_quiz ⟨1, 2, 1/2, none, 0, 0⟩ true 3).mastery_score
        = min 1 ((1:ℚ)/2 + 0.1 * (1 - 1/2)) ∧
    0 ≤ (update_mastery_from_quiz ⟨1, 2, 1/2, none, 0, 0⟩ false 3).mastery_score := by
  have h := mastery_update_formula_and_bounds ⟨1, 2, 1/2, none, 0, 0⟩ 3
    (by norm_num) (by norm_num)
  exact ⟨h.1, h.2.2.2.2⟩

/-- A candidate tuple `(topic, mastery, priority)` as built by the planner's
topic-selection steps. -/
abbrev Candidate := Topic × Mastery × String

/-- The `priority_weights` dict in `StudyPlanner._allocate_time`
(`planner.py` lines 170-177).  In Python an unknown key raises `KeyError`;
that case is modelled as weight 0 and is unreachable in the program, since
`calculate_review_priority` only produces the three uppercase tags. -/
def priority_weight (p : String) : ℚ :=
  if p = "HIGH" then 1.5
  else if p = "high" then 1.5
  else if p = "MEDIUM" then 1.0
  else if p = "medium" then 1.0
  else if p = "LOW" then 0.7
  else if p = "low" then 0.7
  else 0

/-- The allocation loop of `StudyPlanner._allocate_time` (lines 183-196):
every index except the last gets `max(20, int(weight/total_weight *
total_minutes))` and the running `remaining` decreases by it; the last index
gets `remaining`. -/
def allocate_go : List ℚ → ℚ → ℤ → ℤ → List ℤ
  | [], _, _, _ => []
  | [_], _, _, remaining => [remaining]
  | w :: w2 :: rest, total_weight, total_minutes, remaining =>
    max 20 (pyInt (w / total_weight * (total_minutes : ℚ))) ::
      allocate_go (w2 :: rest) total_weight total_minutes
        (remaining - max 20 (pyInt (w / total_weight * (total_minutes : ℚ))))

/-- `StudyPlanner._allocate_time` (lines 156-196). -/
def _allocate_time (topics : List Candidate) (total_minutes : ℤ) : List ℤ :=
  if topics.isEmpty then []
  else
    let weights := topics.map fun c => priority_weight c.2.2
    allocate_go weights weights.sum total_minutes total_minutes

theorem allocate_go_length (ws : List ℚ) (tw : ℚ) (tm : ℤ) :
    ∀ rem : ℤ, (allocate_go ws tw tm rem).length = ws.length := by
  induction ws with
  | nil => intro rem; rfl
  | cons w rest ih =>
    intro rem
    cases rest with
    | nil => rfl
    | cons w2 rest2 => simpa [allocate_go] using ih _

theorem allocate_go_eq (tw : ℚ) (tm : ℤ) (ws : List ℚ) (hne : ws ≠ []) :
    ∀ rem : ℤ, allocate_go ws tw tm rem =
      (ws.dropLast.map fun w => max 20 (pyInt (w / tw * (tm : ℚ)))) ++
        [rem - ((ws.dropLast.map fun w =>
          max 20 (pyInt (w / tw * (tm : ℚ)))).sum)] := by
  induction ws with
  | nil => exact absurd rfl hne
  | cons w rest ih =>
    intro rem
    cases rest with
    | nil => simp [allocate_go]
    | cons w2 rest2 =>
      have h := ih (List.cons_ne_nil w2 rest2)
        (rem - max 20 (pyInt (w / tw * (tm : ℚ))))
      simp only [allocate_go, h, List.dropLast_cons₂, List.map_cons,
        List.sum_cons, List.cons_append, List.cons.injEq, true_and]
      rw [sub_sub]

theorem allocate_go_sum (ws : List ℚ) (tw : ℚ) (tm : ℤ) (hne : ws ≠ [])
    (rem : ℤ) : (allocate_go ws tw tm rem).sum = rem := by
  rw [allocate_go_eq tw tm ws hne rem]
  simp

theorem allocate_time_formula (topics : List Candidate) (T : ℤ)
    (hne : topics ≠ [])
    (hw : ∀ c ∈ topics, c.2.2 = "HIGH" ∨ c.2.2 = "MEDIUM" ∨ c.2.2 = "LOW")
    (hT : 20 * (topics.length : ℤ) ≤ T) :
    (_allocate_time topics T).sum = T ∧
    _allocate_time topics T =
      ((topics.map fun c => priority_weight c.2.2).dropLast.map fun w =>
          max 20 ⌊w / (topics.map fun c => priority_weight c.2.2).sum * (T : ℚ)⌋) ++
        [T - (((topics.map fun c => priority_weight c.2.2).dropLast.map fun w =>
          max 20 ⌊w / (topics.map fun c => priority_weight c.2.2).sum * (T : ℚ)⌋).sum)] ∧
    priority_weight "HIGH" = 1.5 ∧ priority_weight "MEDIUM" = 1 ∧
    priority_weight "LOW" = 0.7 := by
  have hmapne : topics.map (fun c => priority_weight c.2.2) ≠ [] := by
    simpa using hne
  have hpos : ∀ w ∈ topics.map (fun c => priority_weight c.2.2), (0:ℚ) < w := by
    intro w hwmem
    obtain ⟨c, hc, rfl⟩ := List.mem_map.mp hwmem
    rcases hw c hc with h | h | h <;>
      simp [priority_weight, h] <;> norm_num
  have hsum : (0:ℚ) < (topics.map fun c => priority_weight c.2.2).sum :=
    List.sum_pos _ hpos hmapne
  have hlen : (1:ℤ) ≤ topics.length := by
    have := List.length_pos.mpr hne
    exact_mod_cast this
  have hTpos : (0:ℤ) < T := by linarith
  have hunfold : _allocate_time topics T =
      allocate_go (topics.map fun c => priority_weight c.2.2)
        (topics.map fun c => priority_weight c.2.2).sum T T := by
    simp only [_allocate_time]
    rw [if_neg (by simpa [List.isEmpty_iff] using hne)]
  have hpy : (topics.map fun c => priority_weight c.2.2).dropLast.map
        (fun w => max 20 (pyInt (w / (topics.map fun c =>
          priority_weight c.2.2).sum * (T : ℚ)))) =
      (topics.map fun c => priority_weight c.2.2).dropLast.map
        (fun w => max 20 ⌊w / (topics.map fun c =>
          priority_weight c.2.2).sum * (T : ℚ)⌋) := by
    refine List.map_congr_left ?_
    intro w hwmem
    have hw0 : (0:ℚ) < w :=
      hpos w ((List.dropLast_sublist _).subset hwmem)
    have harg : (0:ℚ) ≤ w / (topics.map fun c =>
        priority_weight c.2.2).sum * (T : ℚ) := by
      apply mul_nonneg (le_of_lt (div_pos hw0 hsum))
      exact_mod_cast le_of_lt hTpos
    rw [pyInt_eq_floor harg]
  refine ⟨?_, ?_, by simp +decide [priority_weight],
    by simp +decide [priority_weight]; norm_num,
    by simp +decide [priority_weight]⟩
  · rw [hunfold]
    exact allocate_go_sum _ _ _ hmapne T
  · rw [hunfold, allocate_go_eq _ _ _ hmapne T, hpy]

/-- C2: for a non-empty candidate list with the documented priority tags and
`total_minutes ≥ 20 * len`, the allocation sums to `total_minutes` exactly;
each non-last candidate gets `max(20, ⌊weight/total_weight * total⌋)` and
the last gets the remainder; the weights are HIGH ↦ 1.5, MEDIUM ↦ 1.0,
LOW ↦ 0.7. -/
theorem allocate_time_sum_and_formula (topics : List Candidate) (T : ℤ)
    (hne : topics ≠ [])
    (hw : ∀ c ∈ topics, c.2.2 = "HIGH" ∨ c.2.2 = "MEDIUM" ∨ c.2.2 = "LOW")
    (hT : 20 * (topics.length : ℤ) ≤ T) :
    (_allocate_time topics T).sum = T ∧
    _allocate_time topics T =
      ((topics.map fun c => priority_weight c.2.2).dropLast.map fun w =>
          max 20 ⌊w / (topics.map fun c => priority_weight c.2.2).sum * (T : ℚ)⌋) ++
        [T - (((topics.map fun c => priority_weight c.2.2).dropLast.map fun w =>
          max 20 ⌊w / (topics.map fun c => priority_weight c.2.2).sum * (T : ℚ)⌋).sum)] ∧
    priority_weight "HIGH" = 1.5 ∧ priority_weight "MEDIUM" = 1 ∧
    priority_weight "LOW" = 0.7 :=
  allocate_time_formula topics T hne hw hT

/-- Concrete topics, masteries and candidates used to evaluate the planner
on closed inputs. -/
def topic_A : Topic := ⟨1, "Cardiology"⟩

def topic_B : Topic := ⟨2, "Nephrology"⟩

def mastery_A : Mastery := ⟨1, 1, 1/2, none, 0, 0⟩

def mastery_B : Mastery := ⟨1, 2, 9/10, some 0, 3, 0⟩

def cand_high : Candidate := (topic_A, mastery_A, "HIGH")

def cand_low : Candidate := (topic_B, mastery_B, "LOW")

/-- Witness for C2: two candidates (HIGH then LOW) and 40 minutes; the
allocation `[27, 13]` sums to 40. -/
theorem allocate_time_sum_and_formula_witness :
    (_allocate_time [cand_high, cand_low] 40).sum = 40 ∧
    _allocate_time [cand_high, cand_low] 40 = [27, 13] :=
  ⟨(allocate_time_sum_and_formula [cand_high, cand_low] 40 (by simp)
      (by simp +decide [cand_high, cand_low]) (by norm_num)).1,
    by simp +decide [_allocate_time, allocate_go, cand_high, cand_low,
        priority_weight, pyInt]; norm_num⟩

/-- C4 counterexample: two candidates (HIGH then LOW) and 40 = 20*2 minutes.
The non-last candidate gets max(20, ⌊1.5/2.2 * 40⌋) = 27, so the last
receives only 13 < 20 minutes: not every allocation is ≥ 20. -/
theorem allocate_time_last_allocation_below_min :
    (20 * (2:ℤ) ≤ 40) ∧
    _allocate_time [cand_high, cand_low] 40 = [27, 13] ∧
    ¬ (∀ a ∈ _allocate_time [cand_high, cand_low] 40, (20:ℤ) ≤ a) := by
  refine ⟨by norm_num, ?_, ?_⟩
  · simp +decide [_allocate_time, allocate_go, cand_high, cand_low,
      priority_weight, pyInt]; norm_num
  · intro hall
    have h13 : (13:ℤ) ∈ _allocate_time [cand_high, cand_low] 40 := by
      simp +decide [_allocate_time, allocate_go, cand_high, cand_low,
        priority_weight, pyInt]; norm_num
    have := hall 13 h13
    omega

/-- C4 amended: under the claim's hypotheses every allocation is an integer
and every allocation except the last is ≥ 20 minutes; the last allocation
equals the total minus the others and can drop below 20. -/
theorem allocate_time_nonlast_allocations_min (topics : List Candidate)
    (T : ℤ) (hne : topics ≠ [])
    (hw : ∀ c ∈ topics, c.2.2 = "HIGH" ∨ c.2.2 = "MEDIUM" ∨ c.2.2 = "LOW")
    (hT : 20 * (topics.length : ℤ) ≤ T) :
    ∀ a ∈ (_allocate_time topics T).dropLast, (20:ℤ) ≤ a := by
  intro a ha
  have hform := (allocate_time_formula topics T hne hw hT).2.1
  rw [hform, List.dropLast_concat] at ha
  obtain ⟨w, hwmem, rfl⟩ := List.mem_map.mp ha
  exact le_max_left _ _

/-- Witness for the amended C4: at the HIGH/LOW 40-minute input, the single
non-last allocation is 27 ≥ 20. -/
theorem allocate_time_nonlast_allocations_min_witness : (20:ℤ) ≤ 27 :=
  allocate_time_nonlast_allocations_min [cand_high, cand_low] 40
    (by simp) (by simp +decide [cand_high, cand_low]) (by norm_num) 27
    (by simp +decide [_allocate_time, allocate_go, cand_high, cand_low,
      priority_weight, pyInt]; norm_num)

/-- `StudyPlanner.calculate_review_priority` (`planner.py` lines 269-302):
`days` falls back to the sentinel 9999 when `last_reviewed_at` is unset. -/
def calculate_review_priority (m : Mastery) (now : ℚ) : String :=
  let days : ℤ :=
    match m.last_reviewed_at with
    | some dt => days_since now dt
    | none => 9999
  if m.mastery_score < 0.7 ∧ 2 < days then "HIGH"
  else if 0.7 ≤ m.mastery_score ∧ m.mastery_score < 0.85 ∧ 7 < days then "MEDIUM"
  else if 0.85 ≤ m.mastery_score then "LOW"
  else "MEDIUM"

/-- C3: the priority classification is total, returns exactly one of the
three tags, and follows the documented case split with every remaining
combination defaulting to MEDIUM. -/
theorem calculate_review_priority_cases (m : Mastery) (now : ℚ) :
    ((calculate_review_priority m now = "HIGH" ∨
      calculate_review_priority m now = "MEDIUM" ∨
      calculate_review_priority m now = "LOW") ∧
    (m.mastery_score < 0.7 →
      2 < (match m.last_reviewed_at with
        | some dt => days_since now dt
        | none => 9999) →
      calculate_review_priority m now = "HIGH") ∧
    (0.7 ≤ m.mastery_score → m.mastery_score < 0.85 →
      7 < (match m.last_reviewed_at with
        | some dt => days_since now dt
        | none => 9999) →
      calculate_review_priority m now = "MEDIUM") ∧
    (0.85 ≤ m.mastery_score → calculate_review_priority m now = "LOW") ∧
    (¬ (m.mastery_score < 0.7 ∧
        2 < (match m.last_reviewed_at with
          | some dt => days_since now dt
          | none => 9999)) →
      ¬ 0.85 ≤ m.mastery_score →
      calculate_review_priority m now = "MEDIUM")) := by
  unfold calculate_review_priority
  cases m.last_reviewed_at with
  | none =>
    simp only []
    split_ifs with h1 h2 h3 <;>
      refine ⟨by tauto, ?_, ?_, ?_, ?_⟩ <;> intros <;>
        first
          | rfl
          | (exfalso;
             first
               | exact h1 ⟨by assumption, by assumption⟩
               | exact absurd h1 (by assumption)
               | (rcases h2 with ⟨ha, hb, hc⟩; linarith)
               | linarith)
  | some dt =>
    simp only []
    split_ifs with h1 h2 h3 <;>
      refine ⟨by tauto, ?_, ?_, ?_, ?_⟩ <;> intros <;>
        first
          | rfl
          | (exfalso;
             first
               | exact h1 ⟨by assumption, by assumption⟩
               | exact absurd h1 (by assumption)
               | (rcases h2 with ⟨ha, hb, hc⟩; linarith)
               | linarith)

/-- Witness for C3: each branch of the case split exercised on a concrete
record: weak + stale ↦ HIGH, medium + stale ↦ MEDIUM, strong ↦ LOW, and
weak + recently reviewed ↦ MEDIUM (the catch-all). -/
theorem calculate_review_priority_cases_witness :
    calculate_review_priority ⟨1, 1, 1/2, none, 0, 0⟩ 10 = "HIGH" ∧
    calculate_review_priority ⟨1, 1, 3/4, some 0, 1, 0⟩ 10 = "MEDIUM" ∧
    calculate_review_priority ⟨1, 1, 9/10, some 0, 1, 0⟩ 10 = "LOW" ∧
    calculate_review_priority ⟨1, 1, 1/2, some 9, 1, 0⟩ 10 = "MEDIUM" := by
  refine ⟨?_, ?_, ?_, ?_⟩
  · exact (calculate_review_priority_cases ⟨1, 1, 1/2, none, 0, 0⟩ 10).2.1
      (by norm_num) (by norm_num)
  · exact (calculate_review_priority_cases ⟨1, 1, 3/4, some 0, 1, 0⟩ 10).2.2.1
      (by norm_num) (by norm_num) (by norm_num [days_since])
  · exact (calculate_review_priority_cases ⟨1, 1, 9/10, some 0, 1, 0⟩ 10).2.2.2.1
      (by norm_num)
  · exact (calculate_review_priority_cases ⟨1, 1, 1/2, some 9, 1, 0⟩ 10).2.2.2.2
      (by norm_num [days_since]) (by norm_num)

/-- `app/config.py` `Settings.SPACED_REPETITION_THRESHOLD_DAYS`. -/
def SPACED_REPETITION_THRESHOLD_DAYS : ℤ := 2

/-- `StudyPlanner._get_recommendation_reason` (`planner.py` lines 244-267). -/
def _get_recommendation_reason (m : Mastery) (now : ℚ) : String :=
  let score_reasons : List String :=
    if m.mastery_score < 0.5 then ["Low mastery - needs foundational review"]
    else if m.mastery_score < MASTERY_WEAK_THRESHOLD then ["Below target mastery"]
    else []
  let review_reasons : List String :=
    match m.last_reviewed_at with
    | some dt =>
      if SPACED_REPETITION_THRESHOLD_DAYS < days_since now dt then
        ["Not reviewed for " ++ toString (days_since now dt) ++
          " days - spaced repetition"]
      else []
    | none => ["Never reviewed - new topic"]
  let reasons := score_reasons ++ review_reasons
  if reasons = [] then "Recommended for review"
  else String.intercalate " | " reasons

/-- Python `round(x, 3)` idealized as exact rounding of the rational to the
nearest thousandth (`round` rounds half up); no claim depends on the tie
behavior of float `round`. -/
def round3 (q : ℚ) : ℚ := (round (q * 1000) : ℤ) / 1000

/-- The review/practice split of `StudyPlanner._create_study_block`
(`planner.py` lines 210-222). -/
def review_minutes_of (score : ℚ) (allocated : ℤ) : ℤ :=
  if score < 0.3 then pyInt ((allocated : ℚ) * 0.6)
  else if score < 0.7 then pyInt ((allocated : ℚ) * 0.5)
  else pyInt ((allocated : ℚ) * 0.4)

/-- `quiz_minutes = allocated_minutes - review_minutes`. -/
def quiz_minutes_of (score : ℚ) (allocated : ℤ) : ℤ :=
  allocated - review_minutes_of score allocated

/-- A study block dict as built by `StudyPlanner._create_study_block`; the
`quiz_questions` entry is always the empty placeholder list there and is
omitted.  On ℤ, Lean `/` with the positive divisor 2 is floor division,
matching Python `//`. -/
structure StudyBlock where
  topic_id : Nat
  topic : String
  duration_minutes : ℤ
  review_material : String
  quiz_question_count : ℤ
  current_mastery : ℚ
  reason : String
  priority : String
deriving Repr, DecidableEq

/-- `StudyPlanner._create_study_block` (`planner.py` lines 198-242). -/
def _create_study_block (topic : Topic) (mastery : Mastery)
    (allocated_minutes : ℤ) (priority : String) (now : ℚ) : StudyBlock :=
  let review_minutes := review_minutes_of mastery.mastery_score allocated_minutes
  let quiz_minutes := quiz_minutes_of mastery.mastery_score allocated_minutes
  { topic_id := topic.id
    topic := topic.name
    duration_minutes := allocated_minutes
    review_material := "Review " ++ topic.name ++ " for " ++
      toString review_minutes ++ " minutes"
    quiz_question_count := max 3 (quiz_minutes / 2)
    current_mastery := round3 mastery.mastery_score
    reason := _get_recommendation_reason mastery now
    priority := priority }

/-- C7: for a block built from score `s` and `m ≥ 0` allocated minutes, the
review sub-minutes are `⌊f*m⌋` with `f` = 0.6 / 0.5 / 0.4 by mastery tier,
the practice sub-minutes are the rest, and the suggested question count is
`max(3, practice // 2)`. -/
theorem create_study_block_split (topic : Topic) (m : Mastery) (alloc : ℤ)
    (p : String) (now : ℚ) (h : 0 ≤ alloc) :
    (m.mastery_score < 0.3 →
      review_minutes_of m.mastery_score alloc = ⌊(0.6:ℚ) * alloc⌋) ∧
    (0.3 ≤ m.mastery_score → m.mastery_score < 0.7 →
      review_minutes_of m.mastery_score alloc = ⌊(0.5:ℚ) * alloc⌋) ∧
    (0.7 ≤ m.mastery_score →
      review_minutes_of m.mastery_score alloc = ⌊(0.4:ℚ) * alloc⌋) ∧
    quiz_minutes_of m.mastery_score alloc =
      alloc - review_minutes_of m.mastery_score alloc ∧
    (_create_study_block topic m alloc p now).duration_minutes = alloc ∧
    (_create_study_block topic m alloc p now).quiz_question_count =
      max 3 (quiz_minutes_of m.mastery_score alloc / 2) := by
  have halloc : (0:ℚ) ≤ (alloc : ℚ) := by exact_mod_cast h
  refine ⟨?_, ?_, ?_, rfl, rfl, rfl⟩
  · intro h1
    rw [review_minutes_of, if_pos h1,
      pyInt_eq_floor (by positivity), mul_comm]
  · intro h1 h2
    rw [review_minutes_of, if_neg (by linarith), if_pos h2,
      pyInt_eq_floor (by positivity), mul_comm]
  · intro h1
    rw [review_minutes_of, if_neg (by linarith), if_neg (by linarith),
      pyInt_eq_floor (by positivity), mul_comm]

/-- Witness for C7 at score 1/2 and 27 allocated minutes: review 13,
practice 14, question count 7. -/
theorem create_study_block_split_witness :
    review_minutes_of (1/2) 27 = ⌊(0.5:ℚ) * 27⌋ ∧
    review_minutes_of (1/2) 27 = 13 ∧
    quiz_minutes_of (1/2) 27 = 14 ∧
    (_create_study_block topic_A mastery_A 27 "HIGH" 0).quiz_question_count = 7 := by
  have hsp := create_study_block_split topic_A mastery_A 27 "HIGH" 0 (by norm_num)
  have h1 : review_minutes_of (1/2) 27 = ⌊(0.5:ℚ) * 27⌋ := by
    have := hsp.2.1 (by norm_num [mastery_A]) (by norm_num [mastery_A])
    simpa [mastery_A] using this
  refine ⟨h1, ?_, ?_, ?_⟩
  · rw [h1]; norm_num
  · rw [quiz_minutes_of, h1]; norm_num
  · rw [hsp.2.2.2.2.2]
    have : quiz_minutes_of mastery_A.mastery_score 27 = 14 := by
      rw [show mastery_A.mastery_score = 1/2 from rfl, quiz_minutes_of, h1]
      norm_num
    rw [this]
    decide

/-- The composite priority score of
`MasteryService.get_weak_topics_for_review` (`service.py` lines 276-290):
`(1 - score) * 100` plus `min(days*5, 50)` when reviewed, else a flat 50. -/
def priority_score (m : Mastery) (now : ℚ) : ℚ :=
  (1.0 - m.mastery_score) * 100 +
    match m.last_reviewed_at with
    | some dt => ((min (days_since now dt * 5) 50 : ℤ) : ℚ)
    | none => 50

/-- The comparison used to model `scored_masteries.sort(key=fst,
reverse=True)`: a stable sort under this relation is descending in the
score with ties in input order, which is exactly Python's stable
`list.sort` with `reverse=True`. -/
def score_desc (a b : ℚ × Mastery) : Prop := b.1 ≤ a.1

instance : DecidableRel score_desc :=
  fun a b => inferInstanceAs (Decidable (b.1 ≤ a.1))

instance : IsTotal (ℚ × Mastery) score_desc := ⟨fun a b => le_total b.1 a.1⟩

instance : IsTrans (ℚ × Mastery) score_desc :=
  ⟨fun _ _ _ hab hbc => le_trans hbc hab⟩

/-- `MasteryService.get_weak_topics_for_review` (`service.py` lines
256-294) on the list of the user's mastery rows: score each row, sort by
score descending (stable), return the first `limit`. -/
def get_weak_topics_for_review (masteries : List Mastery) (limit : Nat)
    (now : ℚ) : List Mastery :=
  let scored := masteries.map fun m => (priority_score m now, m)
  ((scored.insertionSort score_desc).take limit).map Prod.snd

theorem filter_orderedInsert_key (c : ℚ) (p : ℚ × Mastery) :
    ∀ l : List (ℚ × Mastery),
      (l.orderedInsert score_desc p).filter (fun q => decide (q.1 = c)) =
        if p.1 = c then p :: l.filter (fun q => decide (q.1 = c))
        else l.filter (fun q => decide (q.1 = c)) := by
  intro l
  induction l with
  | nil =>
    by_cases hp : p.1 = c <;> simp [List.orderedInsert, List.filter, hp]
  | cons b l ih =>
    by_cases hr : score_desc p b
    · simp only [List.orderedInsert, if_pos hr]
      by_cases hp : p.1 = c <;> simp [List.filter_cons, hp]
    · have hgt : p.1 < b.1 := not_le.mp hr
      simp only [List.orderedInsert, if_neg hr, List.filter_cons]
      by_cases hb : b.1 = c
      · have hp : ¬ p.1 = c := by
          intro hp; rw [hp, ← hb] at hgt; exact lt_irrefl _ hgt
        simp [hb, hp, ih]
      · by_cases hp : p.1 = c <;> simp [hb, hp, ih]

theorem filter_insertionSort_key (c : ℚ) :
    ∀ l : List (ℚ × Mastery),
      (l.insertionSort score_desc).filter (fun q => decide (q.1 = c)) =
        l.filter (fun q => decide (q.1 = c)) := by
  intro l
  induction l with
  | nil => rfl
  | cons x xs ih =>
    simp only [List.insertionSort, filter_orderedInsert_key, ih,
      List.filter_cons]
    by_cases hx : x.1 = c <;> simp [hx]

theorem scored_fst_eq (ms : List Mastery) (now : ℚ) :
    ∀ q ∈ (ms.map fun m => (priority_score m now, m)).insertionSort score_desc,
      q.1 = priority_score q.2 now := by
  intro q hq
  have hmem := (List.perm_insertionSort score_desc _).mem_iff.mp hq
  obtain ⟨m, _, rfl⟩ := List.mem_map.mp hmem
  rfl

/-- C5: the composite priority formula (never-reviewed records get the flat
+50), the output is the first `limit` records of the full sorted order, the
full order is a permutation of the input, is non-increasing in the
composite score, and ties keep input order (the sorted list filtered to any
fixed score value equals the input filtered to that value). -/
theorem get_weak_topics_for_review_spec (ms : List Mastery) (limit : Nat)
    (now : ℚ) :
    (∀ m : Mastery, m.last_reviewed_at = none →
      priority_score m now = (1 - m.mastery_score) * 100 + 50) ∧
    (∀ (m : Mastery) (dt : ℚ), m.last_reviewed_at = some dt →
      priority_score m now =
        (1 - m.mastery_score) * 100 +
          ((min (days_since now dt * 5) 50 : ℤ) : ℚ)) ∧
    get_weak_topics_for_review ms limit now =
      (get_weak_topics_for_review ms ms.length now).take limit ∧
    (get_weak_topics_for_review ms ms.length now).Perm ms ∧
    List.Sorted (fun a b => priority_score b now ≤ priority_score a now)
      (get_weak_topics_for_review ms ms.length now) ∧
    (∀ c : ℚ,
      (get_weak_topics_for_review ms ms.length now).filter
          (fun m => decide (priority_score m now = c)) =
        ms.filter (fun m => decide (priority_score m now = c))) := by
  have hlen : ((ms.map fun m => (priority_score m now, m)).insertionSort
      score_desc).length = ms.length := by
    rw [List.length_insertionSort, List.length_map]
  have hfull : get_weak_topics_for_review ms ms.length now =
      ((ms.map fun m => (priority_score m now, m)).insertionSort
        score_desc).map Prod.snd := by
    rw [get_weak_topics_for_review]
    rw [← hlen, List.take_length]
  refine ⟨?_, ?_, ?_, ?_, ?_, ?_⟩
  · intro m hm; simp [priority_score, hm]; norm_num
  · intro m dt hm; simp [priority_score, hm]; norm_num
  · rw [hfull, get_weak_topics_for_review, ← List.map_take]
  · rw [hfull]
    have hperm : ((ms.map fun m => (priority_score m now, m)).insertionSort
        score_desc).Perm (ms.map fun m => (priority_score m now, m)) :=
      List.perm_insertionSort score_desc _
    have hmap := hperm.map Prod.snd
    rw [List.map_map] at hmap
    rw [show (Prod.snd ∘ fun m : Mastery => (priority_score m now, m)) = id
      from rfl, List.map_id] at hmap
    exact hmap
  · rw [hfull]
    have hsorted : List.Sorted score_desc
        ((ms.map fun m => (priority_score m now, m)).insertionSort
          score_desc) := List.sorted_insertionSort score_desc _
    rw [List.Sorted, List.pairwise_map]
    refine hsorted.imp_of_mem ?_
    intro a b ha hb hab
    rw [← scored_fst_eq ms now a ha, ← scored_fst_eq ms now b hb]
    exact hab
  · intro c
    rw [hfull, List.filter_map]
    have hcongr : ((ms.map fun m => (priority_score m now, m)).insertionSort
          score_desc).filter
        ((fun m => decide (priority_score m now = c)) ∘ Prod.snd) =
        ((ms.map fun m => (priority_score m now, m)).insertionSort
          score_desc).filter (fun q => decide (q.1 = c)) := by
      refine List.filter_congr ?_
      intro q hq
      simp only [Function.comp]
      rw [← scored_fst_eq ms now q hq]
    rw [hcongr, filter_insertionSort_key, List.filter_map, List.map_map]
    rw [show (Prod.snd ∘ fun m : Mastery => (priority_score m now, m)) = id
      from rfl, List.map_id]
    rfl

/-- Witness for C5: formulas at a never-reviewed and a reviewed record, and
the take-prefix identity at a concrete two-record list. -/
theorem get_weak_topics_for_review_spec_witness :
    priority_score mastery_A 10 = (1 - mastery_A.mastery_score) * 100 + 50 ∧
    priority_score mastery_B 10 =
      (1 - mastery_B.mastery_score) * 100 +
        ((min (days_since 10 0 * 5) 50 : ℤ) : ℚ) ∧
    get_weak_topics_for_review [mastery_A, mastery_B] 1 10 =
      (get_weak_topics_for_review [mastery_A, mastery_B]
        (List.length [mastery_A, mastery_B]) 10).take 1 := by
  have h := get_weak_topics_for_review_spec [mastery_A, mastery_B] 1 10
  exact ⟨h.1 mastery_A rfl, h.2.1 mastery_B 0 rfl, h.2.2.1⟩

/-- The SQLAlchemy row filter `Mastery.user_id == user_id,
Mastery.topic_id == topic_id` used by `MasteryService.get_or_create_mastery`. -/
def mastery_matches (m : Mastery) (uid tid : Nat) : Bool :=
  m.user_id == uid && m.topic_id == tid

/-- `MasteryService.get_or_create_mastery` (`service.py` lines 24-52) on the
`masteries` table as a list of rows in stored order: `.first()` returns the
first matching row; otherwise a fresh row with the initial score is added at
the end of the table.  Returns the fetched-or-created row and the new table. -/
def get_or_create_mastery (db : List Mastery) (uid tid : Nat) (now : ℚ) :
    Mastery × List Mastery :=
  match db.find? (fun m => mastery_matches m uid tid) with
  | some m => (m, db)
  | none =>
    ((⟨uid, tid, MASTERY_INITIAL_SCORE, none, 0, now⟩ : Mastery),
      db ++ [(⟨uid, tid, MASTERY_INITIAL_SCORE, none, 0, now⟩ : Mastery)])

/-- In-place mutation of the first row matching the key, leaving every other
row untouched (the ORM writes the fetched row back to its own position). -/
def update_first (db : List Mastery) (uid tid : Nat) (f : Mastery → Mastery) :
    List Mastery :=
  match db with
  | [] => []
  | m :: rest =>
    if mastery_matches m uid tid then f m :: rest
    else m :: update_first rest uid tid f

/-- `MasteryService.update_mastery_from_quiz` (`service.py` lines 54-96) at
the table level: fetch-or-create the row for `(user_id, topic_id)`, then
mutate that row in place. -/
def update_mastery_from_quiz_db (db : List Mastery) (uid tid : Nat)
    (correct : Bool) (now : ℚ) : List Mastery :=
  match db.find? (fun m => mastery_matches m uid tid) with
  | some _ =>
    update_first db uid tid (fun m => update_mastery_from_quiz m correct now)
  | none =>
    db ++ [update_mastery_from_quiz
      (⟨uid, tid, MASTERY_INITIAL_SCORE, none, 0, now⟩ : Mastery) correct now]

theorem update_first_getElem (uid tid : Nat) (f : Mastery → Mastery) :
    ∀ (db : List Mastery) (i : Nat) (h : i < db.length),
      mastery_matches (db.get ⟨i, h⟩) uid tid = false →
      (update_first db uid tid f)[i]? = some (db.get ⟨i, h⟩) := by
  intro db
  induction db with
  | nil => intro i h; exact absurd h (by simp)
  | cons m rest ih =>
    intro i h hmm
    cases i with
    | zero =>
      have : mastery_matches m uid tid = false := hmm
      simp [update_first, this]
    | succ j =>
      by_cases hm : mastery_matches m uid tid
      · simp only [update_first, if_pos hm]
        have hj : j < rest.length := by simpa using h
        rw [List.getElem?_cons_succ]
        rw [List.getElem?_eq_getElem hj]
        rfl
      · simp only [update_first, if_neg hm]
        have hj : j < rest.length := by simpa using h
        rw [List.getElem?_cons_succ]
        exact ih j hj hmm

/-- C9: the quiz update changes only `mastery_score`, `last_reviewed_at`
(set to now) and `review_count` (incremented by exactly one) of the fetched
record — `user_id`, `topic_id` and `created_at` are unchanged — and every
table row whose key does not match is left exactly in place. -/
theorem update_mastery_from_quiz_frame (db : List Mastery) (uid tid : Nat)
    (correct : Bool) (now : ℚ) :
    (∀ m : Mastery,
      (update_mastery_from_quiz m correct now).user_id = m.user_id ∧
      (update_mastery_from_quiz m correct now).topic_id = m.topic_id ∧
      (update_mastery_from_quiz m correct now).created_at = m.created_at ∧
      (update_mastery_from_quiz m correct now).last_reviewed_at = some now ∧
      (update_mastery_from_quiz m correct now).review_count =
        m.review_count + 1) ∧
    (∀ (i : Nat) (h : i < db.length),
      mastery_matches (db.get ⟨i, h⟩) uid tid = false →
      (update_mastery_from_quiz_db db uid tid correct now)[i]? =
        some (db.get ⟨i, h⟩)) := by
  constructor
  · intro m
    exact ⟨rfl, rfl, rfl, rfl, rfl⟩
  · intro i h hmm
    cases hfind : db.find? (fun m => mastery_matches m uid tid) with
    | some m0 =>
      simp only [update_mastery_from_quiz_db, hfind]
      exact update_first_getElem uid tid _ db i h hmm
    | none =>
      simp only [update_mastery_from_quiz_db, hfind]
      rw [List.getElem?_append, if_pos h, List.getElem?_eq_getElem h]
      rfl

/-- Witness for C9: updating the (1,1) key in the two-row table leaves the
non-matching row `mastery_B` in place at index 1. -/
theorem update_mastery_from_quiz_frame_witness :
    (update_mastery_from_quiz_db [mastery_A, mastery_B] 1 1 true 5)[1]? =
      some ([mastery_A, mastery_B].get ⟨1, by norm_num⟩) :=
  (update_mastery_from_quiz_frame [mastery_A, mastery_B] 1 1 true 5).2 1
    (by norm_num) (by decide)

/-- The database: the `topics` and `masteries` tables as lists of rows in
stored order.  A SQLAlchemy query with `.in_(...)` and no `order_by` returns
matching rows in the table's stored order, not in the order of the ids. -/
structure Db where
  topics : List Topic
  masteries : List Mastery
deriving Repr, DecidableEq

/-- The per-topic loop body of `StudyPlanner._get_specific_topics`
(`planner.py` lines 148-152), threading the `masteries` table through the
lazy creation done by `get_or_create_mastery`. -/
def specific_topics_go (uid : Nat) (now : ℚ) :
    List Topic → List Mastery → List Candidate × List Mastery
  | [], ms => ([], ms)
  | t :: rest, ms =>
    let r := get_or_create_mastery ms uid t.id now
    let rec2 := specific_topics_go uid now rest r.2
    ((t, r.1, calculate_review_priority r.1 now) :: rec2.1, rec2.2)

/-- `StudyPlanner._get_specific_topics` (`planner.py` lines 140-154): query
the topics whose id is among `topic_ids` (stored order), then build one
candidate per returned topic. -/
def _get_specific_topics (db : Db) (uid : Nat) (topic_ids : List Nat)
    (now : ℚ) : List Candidate × Db :=
  let r := specific_topics_go uid now
    (db.topics.filter fun t => topic_ids.contains t.id) db.masteries
  (r.1, { db with masteries := r.2 })

theorem get_or_create_mastery_key (db : List Mastery) (uid tid : Nat)
    (now : ℚ) :
    (get_or_create_mastery db uid tid now).1.user_id = uid ∧
    (get_or_create_mastery db uid tid now).1.topic_id = tid := by
  rw [get_or_create_mastery]
  cases hfind : db.find? (fun m => mastery_matches m uid tid) with
  | some m =>
    have hm := List.find?_some hfind
    simp only [mastery_matches, Bool.and_eq_true, beq_iff_eq] at hm
    exact ⟨hm.1, hm.2⟩
  | none => exact ⟨rfl, rfl⟩

theorem specific_topics_go_spec (uid : Nat) (now : ℚ) :
    ∀ (ts : List Topic) (ms : List Mastery),
      ((specific_topics_go uid now ts ms).1.map fun c => c.1) = ts ∧
      ∀ c ∈ (specific_topics_go uid now ts ms).1,
        c.2.1.user_id = uid ∧ c.2.1.topic_id = c.1.id ∧
        c.2.2 = calculate_review_priority c.2.1 now := by
  intro ts
  induction ts with
  | nil =>
    intro ms
    refine ⟨rfl, ?_⟩
    intro c hc
    simp [specific_topics_go] at hc
  | cons t rest ih =>
    intro ms
    constructor
    · simp only [specific_topics_go, List.map_cons]
      rw [(ih _).1]
    · intro c hc
      simp only [specific_topics_go, List.mem_cons] at hc
      cases hc with
      | inl hc =>
        subst hc
        refine ⟨(get_or_create_mastery_key ms uid t.id now).1,
          (get_or_create_mastery_key ms uid t.id now).2, rfl⟩
      | inr hc => exact (ih _).2 c hc

/-- C6 counterexample: the topics table stores ids 1 then 2; asking for
focus topics `[2, 1]` returns the candidates in table order `[1, 2]`, not in
the order the ids were given. -/
theorem get_specific_topics_order_counterexample :
    ((_get_specific_topics ⟨[topic_A, topic_B], []⟩ 1 [2, 1] 0).1.map
        fun c => c.1.id) = [1, 2] ∧
    [1, 2] ≠ [2, 1] := by
  constructor
  · have h := (specific_topics_go_spec 1 0
      (([topic_A, topic_B] : List Topic).filter
        fun t => ([2, 1] : List Nat).contains t.id) []).1
    have hfilter : (([topic_A, topic_B] : List Topic).filter
        fun t => ([2, 1] : List Nat).contains t.id) = [topic_A, topic_B] := by
      simp +decide [topic_A, topic_B]
    have hmap : ((_get_specific_topics ⟨[topic_A, topic_B], []⟩ 1 [2, 1] 0).1.map
        fun c => c.1.id) =
        (((_get_specific_topics ⟨[topic_A, topic_B], []⟩ 1 [2, 1] 0).1.map
          fun c => c.1).map fun t => t.id) := by
      rw [List.map_map]; rfl
    rw [hmap]
    show ((specific_topics_go 1 0 (([topic_A, topic_B] : List Topic).filter
        fun t => ([2, 1] : List Nat).contains t.id) []).1.map
          fun c => c.1).map (fun t => t.id) = [1, 2]
    rw [h, hfilter]
    rfl
  · decide

/-- C6 amended: for any requested id list, the step returns one candidate
per stored topic whose id is among the given ids, in the table's stored
order (not the order of the ids; ids absent from the table produce no
candidate), each paired with a mastery record fetched or lazily created for
that user and topic and with its computed review priority. -/
theorem get_specific_topics_amended (db : Db) (uid : Nat)
    (topic_ids : List Nat) (now : ℚ) :
    ((_get_specific_topics db uid topic_ids now).1.map fun c => c.1) =
      db.topics.filter (fun t => topic_ids.contains t.id) ∧
    ∀ c ∈ (_get_specific_topics db uid topic_ids now).1,
      c.2.1.user_id = uid ∧ c.2.1.topic_id = c.1.id ∧
      c.2.2 = calculate_review_priority c.2.1 now := by
  exact ⟨(specific_topics_go_spec uid now _ db.masteries).1,
    (specific_topics_go_spec uid now _ db.masteries).2⟩

/-- Witness for the amended C6 at the concrete two-topic table. -/
theorem get_specific_topics_amended_witness :
    ((_get_specific_topics ⟨[topic_A, topic_B], []⟩ 1 [2, 1] 0).1.map
        fun c => c.1) = [topic_A, topic_B] ∧
    ∀ c ∈ (_get_specific_topics ⟨[topic_A, topic_B], []⟩ 1 [2, 1] 0).1,
      c.2.1.user_id = 1 := by
  have h := get_specific_topics_amended ⟨[topic_A, topic_B], []⟩ 1 [2, 1] 0
  constructor
  · rw [h.1]
    simp +decide [topic_A, topic_B]
  · intro c hc
    exact (h.2 c hc).1

/-- `StudyPlanner._select_topics_for_study` (`planner.py` lines 102-138):
rank the user's masteries, fetch the corresponding topics, skip masteries
whose topic is missing, tag each with its priority, and keep at most
`max(3, duration // 35)` candidates.  On ℤ, Lean `/` with the positive
divisor 35 is floor division, matching Python `//`. -/
def _select_topics_for_study (db : Db) (uid : Nat) (duration_minutes : ℤ)
    (now : ℚ) : List Candidate :=
  let weak := get_weak_topics_for_review
    (db.masteries.filter fun m => m.user_id == uid) 10 now
  let topic_ids := weak.map fun m => m.topic_id
  let topics := db.topics.filter fun t => topic_ids.contains t.id
  let selected := weak.filterMap fun m =>
    match topics.find? (fun t => t.id == m.topic_id) with
    | some t => some ((t, m, calculate_review_priority m now) : Candidate)
    | none => none
  selected.take (max 3 (duration_minutes / 35)).toNat

/-- The study-plan dict assembled by `StudyPlanner.generate_study_plan`;
a populated plan carries no `message` key, modelled as `none`. -/
structure StudyPlan where
  user_id : Nat
  duration_minutes : ℤ
  generated_at : ℚ
  blocks : List StudyBlock
  total_topics : Nat
  focus_areas : List String
  average_current_mastery : ℚ
  message : Option String
deriving Repr, DecidableEq

/-- `StudyPlanner._create_empty_plan` (`planner.py` lines 304-315). -/
def _create_empty_plan (uid : Nat) (duration_minutes : ℤ) (now : ℚ) :
    StudyPlan :=
  { user_id := uid
    duration_minutes := duration_minutes
    generated_at := now
    blocks := []
    total_topics := 0
    focus_areas := []
    average_current_mastery := 0.0
    message := some "No topics available for study. Start by uploading content or taking quizzes." }

/-- Step 1 of `StudyPlanner.generate_study_plan` (`planner.py` lines
63-69): Python's `if focus_topics:` treats both `None` and the empty list
as absent, falling back to adaptive selection. -/
def topics_to_study_of (db : Db) (uid : Nat) (duration_minutes : ℤ)
    (focus_topics : Option (List Nat)) (now : ℚ) : List Candidate × Db :=
  match focus_topics with
  | some ids =>
    if ids.isEmpty then
      (_select_topics_for_study db uid duration_minutes now, db)
    else _get_specific_topics db uid ids now
  | none => (_select_topics_for_study db uid duration_minutes now, db)

/-- `StudyPlanner.generate_study_plan` (`planner.py` lines 41-100). -/
def generate_study_plan (db : Db) (uid : Nat) (duration_minutes : ℤ)
    (focus_topics : Option (List Nat)) (now : ℚ) : StudyPlan × Db :=
  if (topics_to_study_of db uid duration_minutes focus_topics now).1.isEmpty then
    (_create_empty_plan uid duration_minutes now,
      (topics_to_study_of db uid duration_minutes focus_topics now).2)
  else
    let topics_to_study :=
      (topics_to_study_of db uid duration_minutes focus_topics now).1
    let time_allocation := _allocate_time topics_to_study duration_minutes
    let study_blocks := (topics_to_study.zip time_allocation).map
      fun p => _create_study_block p.1.1 p.1.2.1 p.2 p.1.2.2 now
    ({ user_id := uid
       duration_minutes := duration_minutes
       generated_at := now
       blocks := study_blocks
       total_topics := study_blocks.length
       focus_areas := (study_blocks.take 3).map fun b => b.topic
       average_current_mastery :=
         if study_blocks.isEmpty then 0.0
         else (study_blocks.map fun b => b.current_mastery).sum /
           (study_blocks.length : ℚ)
       message := none },
     (topics_to_study_of db uid duration_minutes focus_topics now).2)

theorem allocate_time_length (ts : List Candidate) (T : ℤ) :
    (_allocate_time ts T).length = ts.length := by
  rw [_allocate_time]
  by_cases h : ts.isEmpty
  · rw [if_pos h]
    rw [List.isEmpty_iff] at h
    simp [h]
  · rw [if_neg h]
    rw [allocate_go_length, List.length_map]

/-- C8: `_allocate_time` on an empty candidate list returns the empty list
(no division occurs); with no candidates the generated plan has zero
blocks, `total_topics = 0`, empty focus areas, average mastery 0 and the
explanatory message, while a populated plan has `total_topics ≠ 0` and no
message, so the two are distinguishable. -/
theorem generate_study_plan_empty_spec (db : Db) (uid : Nat) (duration : ℤ)
    (focus : Option (List Nat)) (now : ℚ) :
    (∀ T : ℤ, _allocate_time [] T = []) ∧
    ((topics_to_study_of db uid duration focus now).1 = [] →
      (generate_study_plan db uid duration focus now).1 =
        _create_empty_plan uid duration now ∧
      (generate_study_plan db uid duration focus now).1.blocks = [] ∧
      (generate_study_plan db uid duration focus now).1.total_topics = 0 ∧
      (generate_study_plan db uid duration focus now).1.focus_areas = [] ∧
      (generate_study_plan db uid duration focus now).1.average_current_mastery
        = 0 ∧
      (generate_study_plan db uid duration focus now).1.message =
        some "No topics available for study. Start by uploading content or taking quizzes.") ∧
    ((topics_to_study_of db uid duration focus now).1 ≠ [] →
      (generate_study_plan db uid duration focus now).1.total_topics ≠ 0 ∧
      (generate_study_plan db uid duration focus now).1.message = none) := by
  refine ⟨fun T => rfl, ?_, ?_⟩
  · intro hts
    have hify : (topics_to_study_of db uid duration focus now).1.isEmpty := by
      rw [List.isEmpty_iff]; exact hts
    rw [generate_study_plan, if_pos hify]
    refine ⟨rfl, rfl, rfl, rfl, ?_, rfl⟩
    norm_num [_create_empty_plan]
  · intro hts
    have hify : ¬ (topics_to_study_of db uid duration focus now).1.isEmpty := by
      rw [List.isEmpty_iff]; exact hts
    rw [generate_study_plan, if_neg hify]
    refine ⟨?_, rfl⟩
    show ¬ (((topics_to_study_of db uid duration focus now).1.zip
      (_allocate_time (topics_to_study_of db uid duration focus now).1
        duration)).map fun p =>
          _create_study_block p.1.1 p.1.2.1 p.2 p.1.2.2 now).length = 0
    rw [List.length_map, List.length_zip, allocate_time_length, min_self]
    simpa using hts

/-- Witness for C8: on an empty database the adaptive candidate list is
empty and the plan is the explicit empty plan; on a one-topic focused
request the plan is populated (`total_topics ≠ 0`, no message). -/
theorem generate_study_plan_empty_spec_witness :
    (generate_study_plan ⟨[], []⟩ 1 60 none 0).1.total_topics = 0 ∧
    (generate_study_plan ⟨[], []⟩ 1 60 none 0).1.message =
      some "No topics available for study. Start by uploading content or taking quizzes." ∧
    (generate_study_plan ⟨[topic_A], []⟩ 1 60 (some [1]) 0).1.total_topics ≠ 0 := by
  have h := (generate_study_plan_empty_spec ⟨[], []⟩ 1 60 none 0).2.1 rfl
  have hne : (topics_to_study_of ⟨[topic_A], []⟩ 1 60 (some [1]) 0).1 ≠ [] := by
    have hmap := (specific_topics_go_spec 1 0
      (([topic_A] : List Topic).filter
        fun t => ([1] : List Nat).contains t.id) []).1
    have hfilter : (([topic_A] : List Topic).filter
        fun t => ([1] : List Nat).contains t.id) = [topic_A] := by
      simp +decide [topic_A]
    rw [hfilter] at hmap
    intro he
    have : ((topics_to_study_of ⟨[topic_A], []⟩ 1 60 (some [1]) 0).1.map
        fun c => c.1) = [] := by rw [he]; rfl
    rw [show (topics_to_study_of ⟨[topic_A], []⟩ 1 60 (some [1]) 0).1 =
      (specific_topics_go 1 0 (([topic_A] : List Topic).filter
        fun t => ([1] : List Nat).contains t.id) []).1 from rfl] at this
    rw [hfilter, hmap] at this
    exact List.cons_ne_nil _ _ this
  have h2 := (generate_study_plan_empty_spec ⟨[topic_A], []⟩ 1 60
    (some [1]) 0).2.2 hne
  exact ⟨h.2.2.1, h.2.2.2.2.2, h2.1⟩

/-- C10: the allocation list always has exactly one entry per candidate
(even for the empty list), so the `zip` in plan generation pairs every
selected topic with exactly one allocation and the plan has exactly one
block per selected topic, in order. -/
theorem allocate_time_length_and_block_pairing :
    (∀ (ts : List Candidate) (T : ℤ),
      (_allocate_time ts T).length = ts.length) ∧
    ∀ (db : Db) (uid : Nat) (duration : ℤ) (focus : Option (List Nat))
      (now : ℚ),
      (generate_study_plan db uid duration focus now).1.blocks.length =
        (topics_to_study_of db uid duration focus now).1.length ∧
      ((generate_study_plan db uid duration focus now).1.blocks.map
          fun b => b.topic_id) =
        ((topics_to_study_of db uid duration focus now).1.map
          fun c => c.1.id) := by
  refine ⟨allocate_time_length, ?_⟩
  intro db uid duration focus now
  by_cases hify : (topics_to_study_of db uid duration focus now).1.isEmpty
  · rw [generate_study_plan, if_pos hify]
    rw [List.isEmpty_iff] at hify
    rw [hify]
    exact ⟨rfl, rfl⟩
  · rw [generate_study_plan, if_neg hify]
    have hlen : ((topics_to_study_of db uid duration focus now).1.zip
        (_allocate_time (topics_to_study_of db uid duration focus now).1
          duration)).length =
        (topics_to_study_of db uid duration focus now).1.length := by
      rw [List.length_zip, allocate_time_length, min_self]
    have hfst : ((topics_to_study_of db uid duration focus now).1.zip
        (_allocate_time (topics_to_study_of db uid duration focus now).1
          duration)).map Prod.fst =
        (topics_to_study_of db uid duration focus now).1 :=
      List.map_fst_zip _ _ (le_of_eq (allocate_time_length _ _).symm)
    constructor
    · show (((topics_to_study_of db uid duration focus now).1.zip
        (_allocate_time (topics_to_study_of db uid duration focus now).1
          duration)).map fun p =>
            _create_study_block p.1.1 p.1.2.1 p.2 p.1.2.2 now).length =
        (topics_to_study_of db uid duration focus now).1.length
      rw [List.length_map, hlen]
    · show (((topics_to_study_of db uid duration focus now).1.zip
        (_allocate_time (topics_to_study_of db uid duration focus now).1
          duration)).map fun p =>
            _create_study_block p.1.1 p.1.2.1 p.2 p.1.2.2 now).map
          (fun b => b.topic_id) =
        ((topics_to_study_of db uid duration focus now).1.map
          fun c => c.1.id)
      rw [List.map_map]
      have heq : (((topics_to_study_of db uid duration focus now).1.zip
          (_allocate_time (topics_to_study_of db uid duration focus now).1
            duration)).map Prod.fst).map (fun c : Candidate => c.1.id) =
          (topics_to_study_of db uid duration focus now).1.map
            (fun c => c.1.id) := by rw [hfst]
      rw [← heq, List.map_map]
      rfl
